import Mathlib

/-!
Shallow embedding of the resource-registration-and-claiming core of the
`ros_control` hardware-interface library.

The file `src/hardware_interface/include/hardware_interface/internal/hardware_resource_manager.h`
defines the access-policy wrapper `HardwareResourceManager` with its two
`getHandle` overloads (policy `ClaimResources`: lookup then claim; policy
`DontClaimResources`: lookup only).  The registry it delegates to
(`ResourceManager` with its name-to-handle map and `registerHandle`/`getHandle`,
and `HardwareInterface` with the claims set and `claim`/`release`) is declared
in headers that are not part of this source tree, so those operations are
modelled from the specification.
-/

deriving instance DecidableEq for Except

namespace RosControl

/-- A resource handle: an opaque value carrying a unique name, obtainable via a
name accessor.  The registry never interprets handle contents, so the payload
is abstracted as a natural number. -/
structure ResourceHandle where
  name : String
  payload : Nat
deriving DecidableEq, Repr

/-- The registry state: the name-to-handle mapping of `ResourceManager`
(association list keyed by resource name, keys unique) and the set of
currently claimed names of `HardwareInterface` (list without duplicates). -/
structure Registry where
  handles : List (String × ResourceHandle)
  claims : List String
deriving DecidableEq, Repr

/-- The empty registry: no handles, no claims. -/
def Registry.empty : Registry := ⟨[], []⟩

/-- Failure cause of registration. -/
inductive RegisterError where
  | alreadyRegistered
deriving DecidableEq, Repr

/-- Failure cause of a lookup. -/
inductive LookupError where
  | notFound
deriving DecidableEq, Repr

/-- Failure cause of a claim. -/
inductive ClaimError where
  | notFound
  | alreadyClaimed
deriving DecidableEq, Repr

/-- Failure cause of a release. -/
inductive ReleaseError where
  | notClaimed
deriving DecidableEq, Repr

/-- The single opaque access failure delivered by `getHandle` under either
policy (the embedding of `HardwareInterfaceException` thrown by the catch
clauses): it carries the resource name and the failure reason. -/
structure AccessFailure where
  name : String
  reason : ClaimError
deriving DecidableEq, Repr

/-- Key lookup in the name-to-handle association list. -/
def findHandle : List (String × ResourceHandle) → String → Option ResourceHandle
  | [], _ => none
  | (k, v) :: rest, n => if k = n then some v else findHandle rest n

/-- Removal of the first occurrence of a name from the claims list (the
embedding of erasing an element from the claims set). -/
def removeName : List String → String → List String
  | [], _ => []
  | c :: rest, n => if c = n then rest else c :: removeName rest n

/-- Modelled from the spec: `ResourceManager::registerHandle` (declared in
`resource_manager.h`, which is not under `src/`).  Inserts a new
name-to-handle mapping, deriving the key from the handle's name accessor;
fails with `AlreadyRegistered` if the name is already present, never
overwriting an existing mapping. -/
def Registry.registerHandle (r : Registry) (h : ResourceHandle) :
    Except RegisterError Registry :=
  match findHandle r.handles h.name with
  | some _ => .error .alreadyRegistered
  | none => .ok { r with handles := (h.name, h) :: r.handles }

/-- Modelled from the spec: `ResourceManager::getHandle` (declared in
`resource_manager.h`, which is not under `src/`).  Pure lookup: returns the
handle registered for the name, fails with `NotFound` if the name is absent;
no side effect on the claims set. -/
def Registry.lookup (r : Registry) (n : String) : Except LookupError ResourceHandle :=
  match findHandle r.handles n with
  | some h => .ok h
  | none => .error .notFound

/-- Modelled from the spec: `HardwareInterface::claim` (declared in
`hardware_interface.h`, which is not under `src/`).  Inserts the name into the
claims set; fails with `NotFound` if the name is absent from the handles map
and with `AlreadyClaimed` if the name is already claimed. -/
def Registry.claim (r : Registry) (n : String) : Except ClaimError Registry :=
  match findHandle r.handles n with
  | none => .error .notFound
  | some _ =>
    if n ∈ r.claims then .error .alreadyClaimed
    else .ok { r with claims := n :: r.claims }

/-- Modelled from the spec: the release operation of the claims set (declared
outside `src/`).  Removes the name from the claims set; fails with
`NotClaimed` if the name is not currently claimed. -/
def Registry.release (r : Registry) (n : String) : Except ReleaseError Registry :=
  if n ∈ r.claims then .ok { r with claims := removeName r.claims n }
  else .error .notClaimed

/-- Modelled from the spec: the claim-status query (declared outside `src/`).
Pure boolean query, never fails; an absent name reports false. -/
def Registry.is_claimed (r : Registry) (n : String) : Bool :=
  decide (n ∈ r.claims)

/-- The compile-time claim policy tag of `HardwareResourceManager`. -/
inductive ClaimPolicy where
  | ClaimResources
  | DontClaimResources
deriving DecidableEq, Repr

/-- The default value of the `ClaimPolicy` template parameter of
`HardwareResourceManager` (line 79 of `hardware_resource_manager.h`). -/
def defaultClaimPolicy : ClaimPolicy := .DontClaimResources

/-- `HardwareResourceManager::getHandle` under the `ClaimResources` policy
(lines 97 to 111 of `hardware_resource_manager.h`): fetch the handle by
lookup, then claim the name, returning the handle fetched before the claim;
a failure of either sub-step is rethrown as the single access-failure type,
pairing the result with the final registry state. -/
def getHandleClaiming (r : Registry) (n : String) :
    Except AccessFailure ResourceHandle × Registry :=
  match r.lookup n with
  | .error _ => (.error ⟨n, .notFound⟩, r)
  | .ok out =>
    match r.claim n with
    | .ok r' => (.ok out, r')
    | .error e => (.error ⟨n, e⟩, r)

/-- `HardwareResourceManager::getHandle` under the `DontClaimResources` policy
(lines 122 to 134 of `hardware_resource_manager.h`): lookup only, on a const
receiver; a lookup failure is rethrown as the single access-failure type.
The registry state is returned unchanged. -/
def getHandleNonClaiming (r : Registry) (n : String) :
    Except AccessFailure ResourceHandle × Registry :=
  match r.lookup n with
  | .error _ => (.error ⟨n, .notFound⟩, r)
  | .ok out => (.ok out, r)

/-- `getHandle` dispatched on the policy tag. -/
def getHandle (p : ClaimPolicy) (r : Registry) (n : String) :
    Except AccessFailure ResourceHandle × Registry :=
  match p with
  | .ClaimResources => getHandleClaiming r n
  | .DontClaimResources => getHandleNonClaiming r n

/-- One operation of the registry interface, for reachability statements. -/
inductive Op where
  | registerOp (h : ResourceHandle)
  | lookupOp (n : String)
  | claimOp (n : String)
  | releaseOp (n : String)
  | isClaimedOp (n : String)
  | getHandleOp (p : ClaimPolicy) (n : String)
deriving DecidableEq, Repr

/-- The registry state after one operation; a failing operation leaves the
state unchanged. -/
def applyOp (r : Registry) : Op → Registry
  | .registerOp h =>
    match r.registerHandle h with
    | .ok r' => r'
    | .error _ => r
  | .lookupOp _ => r
  | .claimOp n =>
    match r.claim n with
    | .ok r' => r'
    | .error _ => r
  | .releaseOp n =>
    match r.release n with
    | .ok r' => r'
    | .error _ => r
  | .isClaimedOp _ => r
  | .getHandleOp p n => (getHandle p r n).2

/-- The registry state reached from the empty registry by a sequence of
operations. -/
def run (ops : List Op) : Registry :=
  ops.foldl applyOp Registry.empty

/-- The claims-subset invariant: every claimed name is a key of the handles
map. -/
def Inv (r : Registry) : Prop :=
  ∀ n, n ∈ r.claims → (findHandle r.handles n).isSome = true

/-- Concrete handle used in witnesses. -/
def hJointCmd : ResourceHandle := ⟨"joint1_cmd", 1⟩

/-- Concrete handle used in witnesses. -/
def hJointState : ResourceHandle := ⟨"joint1_state", 2⟩

/-- Concrete registry used in witnesses: two registered names, none claimed. -/
def regDemo : Registry :=
  ⟨[("joint1_cmd", hJointCmd), ("joint1_state", hJointState)], []⟩

/-- Concrete registry used in witnesses: two registered names, the command
resource claimed. -/
def regDemoClaimed : Registry :=
  ⟨[("joint1_cmd", hJointCmd), ("joint1_state", hJointState)], ["joint1_cmd"]⟩

/-- Concrete duplicate handle (same name, different payload) used in witnesses. -/
def hJointCmd2 : ResourceHandle := ⟨"joint1_cmd", 99⟩

/-- Concrete one-handle registry used in witnesses. -/
def regOne : Registry := ⟨[("joint1_cmd", hJointCmd)], []⟩

theorem mem_removeName {l : List String} {m n : String}
    (h : m ∈ removeName l n) : m ∈ l := by
  induction l with
  | nil => simp [removeName] at h
  | cons c rest ih =>
    simp only [removeName] at h
    split at h
    · exact List.mem_cons_of_mem _ h
    · rcases List.mem_cons.mp h with h1 | h2
      · subst h1; exact List.mem_cons_self _ _
      · exact List.mem_cons_of_mem _ (ih h2)

theorem mem_removeName_of_ne {l : List String} {m n : String} (hne : m ≠ n)
    (h : m ∈ l) : m ∈ removeName l n := by
  induction l with
  | nil => simp at h
  | cons c rest ih =>
    simp only [removeName]
    split
    · rename_i hcn
      rcases List.mem_cons.mp h with h1 | h2
      · exact absurd (h1.trans hcn) hne
      · exact h2
    · rcases List.mem_cons.mp h with h1 | h2
      · subst h1; exact List.mem_cons_self _ _
      · exact List.mem_cons_of_mem _ (ih h2)

theorem removeName_cons_self (l : List String) (n : String) :
    removeName (n :: l) n = l := by
  simp [removeName]

theorem findHandle_cons_isSome {l : List (String × ResourceHandle)} {m : String}
    (k : String) (v : ResourceHandle) (h : (findHandle l m).isSome = true) :
    (findHandle ((k, v) :: l) m).isSome = true := by
  simp only [findHandle]
  split
  · rfl
  · exact h

theorem lookup_eq_of_find {r : Registry} {n : String} {h : ResourceHandle}
    (hf : findHandle r.handles n = some h) : r.lookup n = .ok h := by
  simp [Registry.lookup, hf]

theorem lookup_notFound {r : Registry} {n : String}
    (hf : findHandle r.handles n = none) : r.lookup n = .error .notFound := by
  simp [Registry.lookup, hf]

theorem lookup_ok_dest {r : Registry} {n : String} {h : ResourceHandle}
    (hl : r.lookup n = .ok h) : findHandle r.handles n = some h := by
  cases hf : findHandle r.handles n with
  | none => simp [Registry.lookup, hf] at hl
  | some v =>
    simp [Registry.lookup, hf] at hl
    rw [hl]

theorem claim_notFound_eq {r : Registry} {n : String}
    (hf : findHandle r.handles n = none) : r.claim n = .error .notFound := by
  simp [Registry.claim, hf]

theorem claim_already_eq {r : Registry} {n : String}
    (hf : (findHandle r.handles n).isSome = true) (hc : n ∈ r.claims) :
    r.claim n = .error .alreadyClaimed := by
  cases hfind : findHandle r.handles n with
  | none => simp [hfind] at hf
  | some v => simp [Registry.claim, hfind, hc]

theorem claim_ok_of {r : Registry} {n : String}
    (hf : (findHandle r.handles n).isSome = true) (hc : n ∉ r.claims) :
    r.claim n = .ok { r with claims := n :: r.claims } := by
  cases hfind : findHandle r.handles n with
  | none => simp [hfind] at hf
  | some v => simp [Registry.claim, hfind, hc]

theorem claim_ok_dest {r r' : Registry} {n : String} (h : r.claim n = .ok r') :
    r'.handles = r.handles ∧ r'.claims = n :: r.claims ∧
      (findHandle r.handles n).isSome = true ∧ n ∉ r.claims := by
  cases hfind : findHandle r.handles n with
  | none => simp [Registry.claim, hfind] at h
  | some v =>
    by_cases hc : n ∈ r.claims
    · simp [Registry.claim, hfind, hc] at h
    · simp [Registry.claim, hfind, hc] at h
      subst h
      exact ⟨rfl, rfl, by simp [hfind], hc⟩

theorem release_ok_dest {r r' : Registry} {n : String}
    (h : r.release n = .ok r') :
    r'.handles = r.handles ∧ r'.claims = removeName r.claims n ∧
      n ∈ r.claims := by
  by_cases hc : n ∈ r.claims
  · simp [Registry.release, hc] at h
    subst h
    exact ⟨rfl, rfl, hc⟩
  · simp [Registry.release, hc] at h

theorem registerHandle_ok_of {r : Registry} {h : ResourceHandle}
    (hfind : findHandle r.handles h.name = none) :
    r.registerHandle h = .ok { r with handles := (h.name, h) :: r.handles } := by
  simp [Registry.registerHandle, hfind]

theorem registerHandle_already_eq {r : Registry} {h : ResourceHandle}
    (hfind : (findHandle r.handles h.name).isSome = true) :
    r.registerHandle h = .error .alreadyRegistered := by
  cases hf2 : findHandle r.handles h.name with
  | none => simp [hf2] at hfind
  | some v => simp [Registry.registerHandle, hf2]

theorem registerHandle_ok_dest {r r' : Registry} {h : ResourceHandle}
    (hreg : r.registerHandle h = .ok r') :
    r'.handles = (h.name, h) :: r.handles ∧ r'.claims = r.claims ∧
      findHandle r.handles h.name = none := by
  cases hfind : findHandle r.handles h.name with
  | some v => simp [Registry.registerHandle, hfind] at hreg
  | none =>
    simp [Registry.registerHandle, hfind] at hreg
    subst hreg
    exact ⟨rfl, rfl, rfl⟩

theorem getHandleNonClaiming_snd (r : Registry) (n : String) :
    (getHandleNonClaiming r n).2 = r := by
  cases hl : r.lookup n <;> simp [getHandleNonClaiming, hl]

theorem getHandleClaiming_cases (r : Registry) (n : String) :
    (getHandleClaiming r n).2 = r ∨
      r.claim n = .ok (getHandleClaiming r n).2 := by
  cases hl : r.lookup n with
  | error e => simp [getHandleClaiming, hl]
  | ok out =>
    cases hc : r.claim n with
    | ok r' => simp [getHandleClaiming, hl, hc]
    | error e => simp [getHandleClaiming, hl, hc]

theorem getHandleClaiming_eq_notFound {r : Registry} {n : String}
    (hf : findHandle r.handles n = none) :
    getHandleClaiming r n = (.error ⟨n, .notFound⟩, r) := by
  simp [getHandleClaiming, lookup_notFound hf]

theorem getHandleClaiming_eq_already {r : Registry} {n : String}
    {h : ResourceHandle} (hf : findHandle r.handles n = some h)
    (hc : n ∈ r.claims) :
    getHandleClaiming r n = (.error ⟨n, .alreadyClaimed⟩, r) := by
  simp [getHandleClaiming, lookup_eq_of_find hf,
    claim_already_eq (by simp [hf]) hc]

theorem getHandleClaiming_eq_ok {r : Registry} {n : String}
    {h : ResourceHandle} (hf : findHandle r.handles n = some h)
    (hc : n ∉ r.claims) :
    getHandleClaiming r n = (.ok h, { r with claims := n :: r.claims }) := by
  simp [getHandleClaiming, lookup_eq_of_find hf, claim_ok_of (by simp [hf]) hc]

theorem getHandleNonClaiming_eq_notFound {r : Registry} {n : String}
    (hf : findHandle r.handles n = none) :
    getHandleNonClaiming r n = (.error ⟨n, .notFound⟩, r) := by
  simp [getHandleNonClaiming, lookup_notFound hf]

theorem getHandleNonClaiming_eq_ok {r : Registry} {n : String}
    {h : ResourceHandle} (hf : findHandle r.handles n = some h) :
    getHandleNonClaiming r n = (.ok h, r) := by
  simp [getHandleNonClaiming, lookup_eq_of_find hf]

theorem applyOp_result (r : Registry) (op : Op) :
    applyOp r op = r ∨ (∃ h, r.registerHandle h = .ok (applyOp r op)) ∨
      (∃ n, r.claim n = .ok (applyOp r op)) ∨
      (∃ n, r.release n = .ok (applyOp r op)) := by
  cases op with
  | registerOp h =>
    cases hreg : r.registerHandle h with
    | error e => left; simp [applyOp, hreg]
    | ok r' => right; left; exact ⟨h, by simp [applyOp, hreg]⟩
  | lookupOp n => left; rfl
  | claimOp n =>
    cases hc : r.claim n with
    | error e => left; simp [applyOp, hc]
    | ok r' => right; right; left; exact ⟨n, by simp [applyOp, hc]⟩
  | releaseOp n =>
    cases hc : r.release n with
    | error e => left; simp [applyOp, hc]
    | ok r' => right; right; right; exact ⟨n, by simp [applyOp, hc]⟩
  | isClaimedOp n => left; rfl
  | getHandleOp p n =>
    cases p with
    | DontClaimResources => left; exact getHandleNonClaiming_snd r n
    | ClaimResources =>
      rcases getHandleClaiming_cases r n with h | h
      · left; exact h
      · right; right; left; exact ⟨n, h⟩

theorem inv_registerHandle {r r' : Registry} {h : ResourceHandle} (hr : Inv r)
    (hreg : r.registerHandle h = .ok r') : Inv r' := by
  obtain ⟨hh, hc, _⟩ := registerHandle_ok_dest hreg
  intro m hm
  rw [hh]
  exact findHandle_cons_isSome _ _ (hr m (by rwa [hc] at hm))

theorem inv_claim {r r' : Registry} {n : String} (hr : Inv r)
    (hcl : r.claim n = .ok r') : Inv r' := by
  obtain ⟨hh, hc, hf, _⟩ := claim_ok_dest hcl
  intro m hm
  rw [hh]
  rw [hc] at hm
  rcases List.mem_cons.mp hm with h1 | h2
  · subst h1; exact hf
  · exact hr m h2

theorem inv_release {r r' : Registry} {n : String} (hr : Inv r)
    (hrel : r.release n = .ok r') : Inv r' := by
  obtain ⟨hh, hc, _⟩ := release_ok_dest hrel
  intro m hm
  rw [hh]
  exact hr m (mem_removeName (by rwa [hc] at hm))

theorem inv_applyOp {r : Registry} (hr : Inv r) (op : Op) :
    Inv (applyOp r op) := by
  rcases applyOp_result r op with h | ⟨a, h⟩ | ⟨m, h⟩ | ⟨m, h⟩
  · rwa [h]
  · exact inv_registerHandle hr h
  · exact inv_claim hr h
  · exact inv_release hr h

theorem inv_foldl (ops : List Op) :
    ∀ r : Registry, Inv r → Inv (ops.foldl applyOp r) := by
  induction ops with
  | nil => intro r hr; exact hr
  | cons op rest ih => intro r hr; exact ih _ (inv_applyOp hr op)

theorem is_claimed_persists {r : Registry} {n : String}
    (h : r.is_claimed n = true) {op : Op} (hop : op ≠ Op.releaseOp n) :
    (applyOp r op).is_claimed n = true := by
  cases op with
  | registerOp a =>
    cases hreg : r.registerHandle a with
    | error e => simpa [applyOp, hreg] using h
    | ok r' =>
      obtain ⟨_, hc, _⟩ := registerHandle_ok_dest hreg
      simp only [applyOp, hreg]
      unfold Registry.is_claimed at h ⊢
      rw [hc]
      exact h
  | lookupOp m => exact h
  | isClaimedOp m => exact h
  | claimOp m =>
    cases hc : r.claim m with
    | error e => simpa [applyOp, hc] using h
    | ok r' =>
      obtain ⟨_, hcl, _, _⟩ := claim_ok_dest hc
      simp only [applyOp, hc]
      unfold Registry.is_claimed at h ⊢
      rw [hcl]
      simp only [decide_eq_true_eq] at h ⊢
      exact List.mem_cons_of_mem _ h
  | releaseOp m =>
    have hmn : m ≠ n := fun he => hop (by rw [he])
    cases hr : r.release m with
    | error e => simpa [applyOp, hr] using h
    | ok r' =>
      obtain ⟨_, hcl, _⟩ := release_ok_dest hr
      simp only [applyOp, hr]
      unfold Registry.is_claimed at h ⊢
      rw [hcl]
      simp only [decide_eq_true_eq] at h ⊢
      exact mem_removeName_of_ne (fun he => hmn he.symm) h
  | getHandleOp p m =>
    cases p with
    | DontClaimResources =>
      show ((getHandleNonClaiming r m).2).is_claimed n = true
      rw [getHandleNonClaiming_snd]
      exact h
    | ClaimResources =>
      rcases getHandleClaiming_cases r m with hcc | hcc
      · show ((getHandleClaiming r m).2).is_claimed n = true
        rw [hcc]
        exact h
      · obtain ⟨_, hcl, _, _⟩ := claim_ok_dest hcc
        show ((getHandleClaiming r m).2).is_claimed n = true
        unfold Registry.is_claimed at h ⊢
        rw [hcl]
        simp only [decide_eq_true_eq] at h ⊢
        exact List.mem_cons_of_mem _ h

theorem claim_release_roundtrip {r : Registry} {n : String}
    (h : r.is_claimed n = false) :
    applyOp (applyOp r (.claimOp n)) (.releaseOp n) = r := by
  have hn : n ∉ r.claims := of_decide_eq_false h
  cases hf : findHandle r.handles n with
  | none =>
    have hc := claim_notFound_eq hf
    have h1 : applyOp r (.claimOp n) = r := by simp [applyOp, hc]
    rw [h1]
    have hrel : r.release n = .error .notClaimed := by
      unfold Registry.release
      rw [if_neg hn]
    simp [applyOp, hrel]
  | some v =>
    have hc := claim_ok_of (by simp [hf]) hn
    have h1 : applyOp r (.claimOp n) = { r with claims := n :: r.claims } := by
      simp [applyOp, hc]
    rw [h1]
    have hmem : n ∈ ({ r with claims := n :: r.claims } : Registry).claims :=
      List.mem_cons_self _ _
    have hrel : ({ r with claims := n :: r.claims } : Registry).release n =
        .ok r := by
      unfold Registry.release
      rw [if_pos hmem]
      simp [removeName_cons_self]
    simp [applyOp, hrel]

/-- Claim C1: the Claiming-policy get_handle performs lookup then claim as one
combined step: it succeeds exactly when the lookup returns the delivered
handle and the subsequent claim succeeds, producing the claimed state; on any
failure of either sub-step the whole operation fails and the registry state
(in particular the claims set) is exactly as before the call; and when the
lookup fails the operation fails without the claim ever being attempted. -/
theorem getHandle_claiming_atomic (r : Registry) (n : String) :
    (∀ h, (getHandleClaiming r n).1 = .ok h →
      r.lookup n = .ok h ∧ r.claim n = .ok (getHandleClaiming r n).2) ∧
    (∀ e, (getHandleClaiming r n).1 = .error e →
      (getHandleClaiming r n).2 = r) ∧
    (r.lookup n = .error .notFound →
      getHandleClaiming r n = (.error ⟨n, .notFound⟩, r)) := by
  cases hf : findHandle r.handles n with
  | none =>
    rw [getHandleClaiming_eq_notFound hf]
    exact ⟨fun h hcontra => by simp at hcontra, fun e _ => rfl, fun _ => rfl⟩
  | some v =>
    by_cases hc : n ∈ r.claims
    · rw [getHandleClaiming_eq_already hf hc]
      refine ⟨fun h hcontra => by simp at hcontra, fun e _ => rfl,
        fun hl => ?_⟩
      rw [lookup_eq_of_find hf] at hl
      exact absurd hl (by simp)
    · rw [getHandleClaiming_eq_ok hf hc]
      refine ⟨fun h hok => ?_, fun e hcontra => by simp at hcontra,
        fun hl => ?_⟩
      · have hv : v = h := by simpa using hok
        subst hv
        exact ⟨lookup_eq_of_find hf, claim_ok_of (by simp [hf]) hc⟩
      · rw [lookup_eq_of_find hf] at hl
        exact absurd hl (by simp)

/-- Witness for C1: on a registry where the name is absent, the combined
operation fails and returns the registry unchanged. -/
theorem getHandle_claiming_atomic_witness :
    getHandleClaiming regDemo "nope" = (.error ⟨"nope", .notFound⟩, regDemo) :=
  (getHandle_claiming_atomic regDemo "nope").2.2 (by decide)

/-- Claim C2: claim fails with NotFound for unregistered names, fails with
AlreadyClaimed for names already in the claims set (so a second claim right
after a successful one fails with AlreadyClaimed), and on success inserts the
name into the claims set, with is_claimed true from the successful claim and
staying true under every subsequent operation other than a release of that
name. -/
theorem claim_semantics (r : Registry) (n : String) :
    (findHandle r.handles n = none → r.claim n = .error .notFound) ∧
    ((findHandle r.handles n).isSome = true → n ∈ r.claims →
      r.claim n = .error .alreadyClaimed) ∧
    (∀ r', r.claim n = .ok r' →
      r'.claims = n :: r.claims ∧ r'.is_claimed n = true ∧
      r'.claim n = .error .alreadyClaimed) ∧
    (r.is_claimed n = true → ∀ op, op ≠ Op.releaseOp n →
      (applyOp r op).is_claimed n = true) := by
  refine ⟨claim_notFound_eq, claim_already_eq, fun r' hok => ?_,
    fun h op hop => is_claimed_persists h hop⟩
  obtain ⟨hh, hc, hf, hn⟩ := claim_ok_dest hok
  refine ⟨hc, ?_, ?_⟩
  · unfold Registry.is_claimed
    rw [hc]
    simp
  · apply claim_already_eq
    · rw [hh]
      exact hf
    · rw [hc]
      exact List.mem_cons_self _ _

/-- Witness for C2: an unregistered name is rejected with NotFound, a second
claim of a claimed name is rejected with AlreadyClaimed, and a successful
claim makes is_claimed true. -/
theorem claim_semantics_witness :
    regDemo.claim "nope" = .error .notFound ∧
    regDemoClaimed.claim "joint1_cmd" = .error .alreadyClaimed ∧
    regDemoClaimed.is_claimed "joint1_cmd" = true :=
  ⟨(claim_semantics regDemo "nope").1 (by decide),
   (claim_semantics regDemoClaimed "joint1_cmd").2.1 (by decide) (by decide),
   ((claim_semantics regDemo "joint1_cmd").2.2.1 regDemoClaimed
     (by decide)).2.1⟩

/-- Claim C3: the Non-claiming-policy get_handle leaves the whole registry
state unchanged (so is_claimed stays false when it was false), whereas a
successful Claiming-policy get_handle makes is_claimed true. -/
theorem policy_frame_contrast (r : Registry) (n : String) :
    (getHandleNonClaiming r n).2 = r ∧
    (r.is_claimed n = false →
      ((getHandleNonClaiming r n).2).is_claimed n = false) ∧
    (∀ h, (getHandleClaiming r n).1 = .ok h →
      ((getHandleClaiming r n).2).is_claimed n = true) := by
  refine ⟨getHandleNonClaiming_snd r n,
    fun h => by rwa [getHandleNonClaiming_snd], fun h hok => ?_⟩
  cases hf : findHandle r.handles n with
  | none =>
    rw [getHandleClaiming_eq_notFound hf] at hok
    simp at hok
  | some v =>
    by_cases hc : n ∈ r.claims
    · rw [getHandleClaiming_eq_already hf hc] at hok
      simp at hok
    · rw [getHandleClaiming_eq_ok hf hc]
      unfold Registry.is_claimed
      simp

/-- Witness for C3: over the demo registry the non-claiming access leaves the
command resource unclaimed while the claiming access claims it. -/
theorem policy_frame_contrast_witness :
    ((getHandleNonClaiming regDemo "joint1_cmd").2).is_claimed "joint1_cmd" =
      false ∧
    ((getHandleClaiming regDemo "joint1_cmd").2).is_claimed "joint1_cmd" =
      true :=
  ⟨(policy_frame_contrast regDemo "joint1_cmd").2.1 (by decide),
   (policy_frame_contrast regDemo "joint1_cmd").2.2 hJointCmd (by decide)⟩

/-- Claim C5: registering an unregistered name succeeds; afterwards lookup of
that name returns exactly the registered handle, and a second registration of
any handle with the same name fails with AlreadyRegistered and leaves the
registry (hence the existing mapping) unchanged. -/
theorem register_semantics (r : Registry) (h h' : ResourceHandle)
    (habs : findHandle r.handles h.name = none) (hname : h'.name = h.name) :
    r.registerHandle h =
      .ok { r with handles := (h.name, h) :: r.handles } ∧
    ({ r with handles := (h.name, h) :: r.handles } : Registry).lookup h.name =
      .ok h ∧
    ({ r with handles := (h.name, h) :: r.handles } : Registry).registerHandle
      h' = .error .alreadyRegistered ∧
    applyOp { r with handles := (h.name, h) :: r.handles } (.registerOp h') =
      { r with handles := (h.name, h) :: r.handles } := by
  have hfind : (findHandle ((h.name, h) :: r.handles) h'.name).isSome =
      true := by
    simp [findHandle, hname]
  have herr := registerHandle_already_eq
    (r := { r with handles := (h.name, h) :: r.handles }) (h := h') hfind
  refine ⟨registerHandle_ok_of habs,
    lookup_eq_of_find (by simp [findHandle]), herr, ?_⟩
  simp [applyOp, herr]

/-- Witness for C5: registering the command handle into the empty registry
succeeds, lookup returns it, and re-registering a different handle with the
same name is rejected without changing the registry. -/
theorem register_semantics_witness :
    Registry.empty.registerHandle hJointCmd = .ok regOne ∧
    regOne.lookup "joint1_cmd" = .ok hJointCmd ∧
    regOne.registerHandle hJointCmd2 = .error .alreadyRegistered ∧
    applyOp regOne (.registerOp hJointCmd2) = regOne :=
  register_semantics Registry.empty hJointCmd hJointCmd2 (by decide) (by decide)

/-- Claim C6: in every state reachable from the empty registry by a sequence
of operations (succeeding or failing), the claims set is a subset of the key
set of the handles map. -/
theorem claims_subset_of_handles (ops : List Op) : Inv (run ops) :=
  inv_foldl ops Registry.empty (by intro n hn; cases hn)

/-- Witness for C6: the invariant on a concrete reachable state. -/
theorem claims_subset_of_handles_witness :
    Inv (run [Op.registerOp hJointCmd, Op.claimOp "joint1_cmd",
      Op.releaseOp "joint1_state"]) :=
  claims_subset_of_handles [Op.registerOp hJointCmd, Op.claimOp "joint1_cmd",
    Op.releaseOp "joint1_state"]

/-- Claim C7: release after a successful claim succeeds and makes is_claimed
false; release of an unclaimed name fails with NotClaimed; and the sequence
claim, release, claim, release starting from a state where the name is
unclaimed returns the registry to the initial claimed-state (is_claimed
false), for any name. -/
theorem release_semantics (r : Registry) (n : String) :
    (∀ r', r.claim n = .ok r' →
      r'.release n = .ok { r' with claims := r.claims } ∧
      ({ r' with claims := r.claims } : Registry).is_claimed n = false) ∧
    (r.is_claimed n = false → r.release n = .error .notClaimed) ∧
    (r.is_claimed n = false →
      (applyOp (applyOp (applyOp (applyOp r (.claimOp n)) (.releaseOp n))
        (.claimOp n)) (.releaseOp n)).is_claimed n = false) := by
  refine ⟨fun r' hok => ?_, fun hfalse => ?_, fun hfalse => ?_⟩
  · obtain ⟨hh, hc, hf, hn⟩ := claim_ok_dest hok
    have hmem : n ∈ r'.claims := by
      rw [hc]
      exact List.mem_cons_self _ _
    refine ⟨?_, ?_⟩
    · unfold Registry.release
      rw [if_pos hmem, hc, removeName_cons_self]
    · unfold Registry.is_claimed
      rw [decide_eq_false_iff_not]
      exact hn
  · unfold Registry.release
    rw [if_neg (of_decide_eq_false hfalse)]
  · rw [claim_release_roundtrip hfalse, claim_release_roundtrip hfalse]
    exact hfalse

/-- Witness for C7: on the demo registry with the command resource unclaimed,
release is rejected with NotClaimed and the four-step claim and release
sequence ends with the resource unclaimed. -/
theorem release_semantics_witness :
    regDemo.release "joint1_cmd" = .error .notClaimed ∧
    (applyOp (applyOp (applyOp (applyOp regDemo (.claimOp "joint1_cmd"))
      (.releaseOp "joint1_cmd")) (.claimOp "joint1_cmd"))
      (.releaseOp "joint1_cmd")).is_claimed "joint1_cmd" = false :=
  ⟨(release_semantics regDemo "joint1_cmd").2.1 (by decide),
   (release_semantics regDemo "joint1_cmd").2.2 (by decide)⟩

/-- Claim C8: every failing get_handle call, under either policy, delivers a
single opaque access-failure value carrying the resource name and the failure
reason, and the underlying error kind stays distinguishable: the reason is
NotFound exactly when the name is unregistered, and AlreadyClaimed exactly
when the policy is the claiming one and the registered name is already
claimed. -/
theorem access_failure_diagnosable (p : ClaimPolicy) (r : Registry)
    (n : String) (e : AccessFailure) (he : (getHandle p r n).1 = .error e) :
    e.name = n ∧
    (e.reason = .notFound ↔ findHandle r.handles n = none) ∧
    (e.reason = .alreadyClaimed ↔
      (p = .ClaimResources ∧ (findHandle r.handles n).isSome = true ∧
        r.is_claimed n = true)) := by
  cases p with
  | ClaimResources =>
    cases hf : findHandle r.handles n with
    | none =>
      have he2 : (⟨n, ClaimError.notFound⟩ : AccessFailure) = e := by
        simp only [getHandle] at he
        rw [getHandleClaiming_eq_notFound hf] at he
        simpa using he
      subst he2
      exact ⟨rfl, by simp, by simp⟩
    | some v =>
      by_cases hc : n ∈ r.claims
      · have he2 : (⟨n, ClaimError.alreadyClaimed⟩ : AccessFailure) = e := by
          simp only [getHandle] at he
          rw [getHandleClaiming_eq_already hf hc] at he
          simpa using he
        subst he2
        refine ⟨rfl, by simp, ?_⟩
        simp [Registry.is_claimed, hc]
      · simp only [getHandle] at he
        rw [getHandleClaiming_eq_ok hf hc] at he
        simp at he
  | DontClaimResources =>
    cases hf : findHandle r.handles n with
    | none =>
      have he2 : (⟨n, ClaimError.notFound⟩ : AccessFailure) = e := by
        simp only [getHandle] at he
        rw [getHandleNonClaiming_eq_notFound hf] at he
        simpa using he
      subst he2
      exact ⟨rfl, by simp, by simp⟩
    | some v =>
      simp only [getHandle] at he
      rw [getHandleNonClaiming_eq_ok hf] at he
      simp at he

/-- Witness for C8: the failure produced by claiming the already-claimed
command resource carries its name and a reason distinguishable as
AlreadyClaimed. -/
theorem access_failure_diagnosable_witness :
    (⟨"joint1_cmd", ClaimError.alreadyClaimed⟩ : AccessFailure).name =
      "joint1_cmd" ∧
    ((⟨"joint1_cmd", ClaimError.alreadyClaimed⟩ : AccessFailure).reason =
        .notFound ↔
      findHandle regDemoClaimed.handles "joint1_cmd" = none) ∧
    ((⟨"joint1_cmd", ClaimError.alreadyClaimed⟩ : AccessFailure).reason =
        .alreadyClaimed ↔
      (ClaimPolicy.ClaimResources = .ClaimResources ∧
        (findHandle regDemoClaimed.handles "joint1_cmd").isSome = true ∧
        regDemoClaimed.is_claimed "joint1_cmd" = true)) :=
  access_failure_diagnosable .ClaimResources regDemoClaimed "joint1_cmd"
    ⟨"joint1_cmd", ClaimError.alreadyClaimed⟩ (by decide)

/-- Claim C9: when the claim-policy parameter is left unspecified the wrapper
gets the non-claiming policy: its getHandle coincides with the non-claiming
accessor and never changes the registry state, for every name. -/
theorem default_policy_no_claim (r : Registry) (n : String) :
    defaultClaimPolicy = .DontClaimResources ∧
    getHandle defaultClaimPolicy r n = getHandleNonClaiming r n ∧
    (getHandle defaultClaimPolicy r n).2 = r :=
  ⟨rfl, rfl, getHandleNonClaiming_snd r n⟩

/-- Witness for C9: the default-policy accessor on the demo registry. -/
theorem default_policy_no_claim_witness :
    defaultClaimPolicy = .DontClaimResources ∧
    getHandle defaultClaimPolicy regDemo "joint1_cmd" =
      getHandleNonClaiming regDemo "joint1_cmd" ∧
    (getHandle defaultClaimPolicy regDemo "joint1_cmd").2 = regDemo :=
  default_policy_no_claim regDemo "joint1_cmd"

/-- Claim C10: over the same registry, whenever both policies' get_handle
calls succeed on a name they return the same handle value: the claiming step
never alters the handle, which is fetched before the claim. -/
theorem policies_agree_on_handle (r : Registry) (n : String)
    (h h' : ResourceHandle) (hc : (getHandleClaiming r n).1 = .ok h)
    (hn : (getHandleNonClaiming r n).1 = .ok h') : h = h' := by
  cases hf : findHandle r.handles n with
  | none =>
    rw [getHandleClaiming_eq_notFound hf] at hc
    simp at hc
  | some v =>
    by_cases hcl : n ∈ r.claims
    · rw [getHandleClaiming_eq_already hf hcl] at hc
      simp at hc
    · rw [getHandleClaiming_eq_ok hf hcl] at hc
      rw [getHandleNonClaiming_eq_ok hf] at hn
      have h1 : v = h := by simpa using hc
      have h2 : v = h' := by simpa using hn
      rw [← h1, ← h2]

/-- Witness for C10: both policies deliver the same handle for the command
resource of the demo registry. -/
theorem policies_agree_on_handle_witness :
    (getHandleClaiming regDemo "joint1_cmd").1 = .ok hJointCmd ∧
    (getHandleNonClaiming regDemo "joint1_cmd").1 = .ok hJointCmd ∧
    hJointCmd = hJointCmd :=
  ⟨by decide, by decide,
   policies_agree_on_handle regDemo "joint1_cmd" hJointCmd hJointCmd
     (by decide) (by decide)⟩

end RosControl
